import Mathlib

/- Verification development for search/django/utils.py.

   Strings are modelled as lists of character ordinals (List Nat).  The
   embedding covers ASCII input (ordinals below 128): on that range the
   Python predicate str.isalpha coincides with the ranges [A-Z] and
   [a-z] used below, and str.lower adds 32 on [A-Z].  The optional
   text_unidecode transliteration step is an external collaborator that
   is the identity on ASCII input; the embedding models the module
   without it, which is the HAS_UNIDECODE = False branch of the source
   minus its logging side effect. -/

/- Ordinals of the string literals used by the module. -/

/-- Ordinals of "AND". -/
def sAND : List Nat := [65, 78, 68]

/-- Ordinals of "OR". -/
def sOR : List Nat := [79, 82]

/-- Ordinals of "in". -/
def sIn : List Nat := [105, 110]

/-- Ordinals of "exact". -/
def sExact : List Nat := [101, 120, 97, 99, 116]

/-- Ordinals of "and_". -/
def sAndUnd : List Nat := [97, 110, 100, 95]

/-- Ordinals of "or_". -/
def sOrUnd : List Nat := [111, 114, 95]

/-- Ordinals of "not_". -/
def sNotUnd : List Nat := [110, 111, 116, 95]

/-- Ordinals of "is_". -/
def sIsUnd : List Nat := [105, 115, 95]

/-- Ordinals of "__and__". -/
def sDunderAnd : List Nat := [95, 95, 97, 110, 100, 95, 95]

/-- Ordinals of "__or__". -/
def sDunderOr : List Nat := [95, 95, 111, 114, 95, 95]

/-- Ordinals of "_". -/
def sUnd : List Nat := [95]

/-- Ordinals of "__". -/
def sUndUnd : List Nat := [95, 95]

/-- Python str.lower on ASCII ordinals. -/
def asciiLower (s : List Nat) : List Nat :=
  s.map fun c => if 65 ≤ c ∧ c ≤ 90 then c + 32 else c

/-- Python string comparison a < b (strict lexicographic order on
    character ordinals). -/
def lexLt : List Nat → List Nat → Bool
  | _, [] => false
  | [], _ :: _ => true
  | a :: as, b :: bs => a < b || (a = b && lexLt as bs)

/- ----------------------------------------------------------------
   get_ascii_string_rank (utils.py lines 26-70)
   ---------------------------------------------------------------- -/

/-- Smallest ordinal taken into account: ord("A"). -/
def smallest_ord : Nat := 65

/-- Ordinal used for punctuation: smallest_ord - 1. -/
def punctuation_ord : Nat := smallest_ord - 1

/-- Offset normalizing the ordinal: smallest_ord - 11. -/
def offset : Nat := smallest_ord - 11

/-- Python str.isalpha restricted to ASCII ordinals. -/
def isAlphaOrd (c : Nat) : Bool :=
  (65 ≤ c && c ≤ 90) || (97 ≤ c && c ≤ 122)

/-- The normalized ordinal of one character:
    (ord(c) if c.isalpha() else punctuation_ord) - offset. -/
def get_ord (c : Nat) : Nat :=
  (if isAlphaOrd c then c else punctuation_ord) - offset

/-- Decimal digits of a natural number, most significant first, as
    produced by str(o).  The first argument is structural fuel, always
    called with enough of it by decDigits. -/
def decDigitsCore : Nat → Nat → List Nat
  | 0, n => [n]
  | fuel + 1, n => if n < 10 then [n] else decDigitsCore fuel (n / 10) ++ [n % 10]

/-- Decimal digit list of n, as produced by str(n). -/
def decDigits (n : Nat) : List Nat := decDigitsCore n n

/-- str(o).zfill(2) on digit lists: left pad with 0 to length 2. -/
def zfill2 (l : List Nat) : List Nat := List.replicate (2 - l.length) 0 ++ l

/-- The two (or more) digit block str(o).zfill(2) of one ordinal. -/
def two_digit (o : Nat) : List Nat := zfill2 (decDigits o)

/-- int("".join(digits)): the value of a decimal digit list. -/
def listVal (l : List Nat) : Nat := l.foldl (fun a d => a * 10 + d) 0

/-- get_ascii_string_rank: convert a string into a number preserving a
    bounded amount of the lexicographic order of the string. -/
def get_ascii_string_rank (string : List Nat) (max_digits : Nat := 9) : Nat :=
  let padding := List.replicate max_digits punctuation_ord
  let ords := (string ++ padding).map get_ord
  let joinable := ords.map two_digit
  listVal (joinable.flatten.take max_digits)

/- ----------------------------------------------------------------
   get_rank (utils.py lines 73-110)
   ---------------------------------------------------------------- -/

/-- MAX_RANK = 2 ** 31. -/
def MAX_RANK : Int := 2 ^ 31

/-- The Python values that can flow through get_rank: None, an int, a
    string, or a zero-argument callable returning another value. -/
inductive PyObj where
  | vNone : PyObj
  | vInt (n : Int) : PyObj
  | vStr (s : List Nat) : PyObj
  | vCallable (result : PyObj) : PyObj
deriving DecidableEq

/-- Python truthiness of the values above. -/
def truthy : PyObj → Bool
  | .vNone => false
  | .vInt n => n != 0
  | .vStr s => s != []
  | .vCallable _ => true

/-- Shared tail of get_rank: the basestring re-encoding and the final
    descending/ascending return.  A non-int value reaching the
    MAX_RANK subtraction is a TypeError, modelled as an error. -/
def finishRank (v : PyObj) (desc : Bool) : Except Unit PyObj :=
  let v2 := match v with
    | .vStr s => PyObj.vInt (get_ascii_string_rank s : Int)
    | other => other
  if desc then .ok v2
  else
    match v2 with
    | .vInt n => .ok (.vInt (MAX_RANK - n))
    | _ => .error ()

/-- get_rank.  The model instance maps attribute names to values; a
    missing attribute is an AttributeError, modelled as an error, as is
    calling startswith on an int.  45 is the ordinal of "-". -/
def get_rank (inst : List Nat → Option PyObj) (rank : PyObj) : Except Unit PyObj :=
  if truthy rank = false then .ok rank
  else
    match rank with
    | .vCallable r => finishRank r true
    | .vStr s =>
      let desc : Bool := s.head? = some 45
      let name := if desc then s.tail else s
      match inst name with
      | none => .error ()
      | some v =>
        finishRank (match v with | .vCallable r => r | other => other) desc
    | _ => .error ()

/- ----------------------------------------------------------------
   get_uid (utils.py lines 118-135)
   ---------------------------------------------------------------- -/

/-- get_uid on name strings.  A class argument contributes its __name__
    attribute, modelled here as the given name string; a string
    argument is used as is.  46 is the ordinal of ".". -/
def get_uid (model_class document_class index_name : List Nat) : List Nat :=
  index_name ++ 46 :: (model_class ++ 46 :: document_class)

/- ----------------------------------------------------------------
   DisableIndexing (utils.py lines 161-177)
   ---------------------------------------------------------------- -/

/-- The context manager state: previous_state is none while the
    attribute has never been assigned (hasattr is false). -/
structure DisableIndexing where
  previous_state : Option Bool
deriving DecidableEq

/-- __enter__: flag is the current thread flag, the result is the
    updated instance and the new flag value, which _disable sets to
    false.  previous_state is captured only when not already set. -/
def DisableIndexing.enter (d : DisableIndexing) (flag : Bool) : DisableIndexing × Bool :=
  (if d.previous_state = none then { previous_state := some flag } else d, false)

/-- __call__: always recaptures previous_state, then disables. -/
def DisableIndexing.call (_ : DisableIndexing) (flag : Bool) : DisableIndexing × Bool :=
  ({ previous_state := some flag }, false)

/-- __exit__: restores the flag from previous_state; reading the never
    assigned attribute is an AttributeError, modelled as an error. -/
def DisableIndexing.exit (d : DisableIndexing) : Except Unit Bool :=
  match d.previous_state with
  | none => .error ()
  | some b => .ok b

/- ----------------------------------------------------------------
   build_lookup (utils.py lines 293-330)
   ---------------------------------------------------------------- -/

/-- A right hand side value of a lookup: a non-iterable scalar or an
    iterable of scalars. -/
inductive LookupRhs where
  | scalarInt (n : Int) : LookupRhs
  | vlist (vs : List Int) : LookupRhs
deriving DecidableEq

/-- The canonical filter structure produced by the extractor: a tuple
    (field, op, value) or a dict with a connector and children. -/
inductive QFilter where
  | leaf (field : List Nat) (op : List Nat) (value : LookupRhs) : QFilter
  | group (connector : List Nat) (children : List QFilter) : QFilter

/-- build_lookup: converts one Lookup into a tuple, expanding an "in"
    lookup into an OR group of "exact" tuples.  Iterating a
    non-iterable rhs is a TypeError, modelled as an error. -/
def build_lookup (target lookup_name : List Nat) (rhs : LookupRhs) : Except Unit QFilter :=
  if asciiLower lookup_name = sIn then
    match rhs with
    | .scalarInt _ => .error ()
    | .vlist vs => .ok (.group sOR (vs.map fun v => .leaf target sExact (.scalarInt v)))
  else .ok (.leaf target lookup_name rhs)

/- ----------------------------------------------------------------
   get_filters_from_queryset (utils.py lines 206-253)
   ---------------------------------------------------------------- -/

/-- The where tree consumed by the extractor: a node is either a Lookup
    exposing (target name, lookup_name, rhs) or a WhereNode with a
    connector and children. -/
inductive WhereNode where
  | lookup (target : List Nat) (lookup_name : List Nat) (rhs : LookupRhs) : WhereNode
  | node (connector : List Nat) (children : List WhereNode) : WhereNode

mutual

/-- get_filters_from_queryset on a where node: build the dict with the
    connector of the node and the processed children.  Reading the
    connector attribute of a Lookup is an AttributeError, modelled as
    an error (the function is only ever called on WhereNode values). -/
def get_filters_from_queryset : WhereNode → Except Unit QFilter
  | .lookup _ _ _ => .error ()
  | .node connector children =>
    Except.map (QFilter.group connector) (extractChildren children)
  termination_by w => (sizeOf w, 0)

/-- The loop over where_node.children. -/
def extractChildren : List WhereNode → Except Unit (List QFilter)
  | [] => .ok []
  | c :: rest => do
    let f ← extractChild c
    let fs ← extractChildren rest
    return f :: fs
  termination_by l => (sizeOf l, 0)

/-- One iteration of the loop: an AND node with a single child is first
    replaced by that child; then a Lookup goes through build_lookup and
    a WhereNode recurses. -/
def extractChild : WhereNode → Except Unit QFilter
  | .lookup t ln rhs => build_lookup t ln rhs
  | .node nc [x] =>
    if nc = sAND then
      match x with
      | .lookup t ln rhs => build_lookup t ln rhs
      | .node nc2 cs2 => get_filters_from_queryset (.node nc2 cs2)
    else get_filters_from_queryset (.node nc [x])
  | .node nc cs => get_filters_from_queryset (.node nc cs)
  termination_by c => (sizeOf c, 1)

end

/- ----------------------------------------------------------------
   filters_to_search_query (utils.py lines 256-290)
   ---------------------------------------------------------------- -/

/-- Modelled from the spec: the Q expression of the ql module (not part
    of src/), a boolean filter expression over single field lookups.
    Q(**{key: value}) is qleaf; the operator module functions and_ and
    or_ applied to two Q values, and the __and__ and __or__ methods,
    combine them. -/
inductive QExpr where
  | qleaf (key : List Nat) (value : LookupRhs) : QExpr
  | qand (a b : QExpr) : QExpr
  | qor (a b : QExpr) : QExpr
deriving DecidableEq

/-- A value the q_objects accumulator (and the stored _gathered_q) can
    hold besides None: a Q expression, or the bool False that
    operator.is_ returns when it compares two distinct objects. -/
inductive QObjVal where
  | qexpr (q : QExpr) : QObjVal
  | pyFalse : QObjVal
deriving DecidableEq

/-- Modelled from the spec: the SearchQuery produced by
    model.search_query() (adapters/ql modules, not part of src/),
    reduced to the one field the compiler touches:
    search_query.query._gathered_q, the gathered filter expression. -/
structure SearchQuery where
  gathered_q : Option QObjVal
deriving DecidableEq

/-- Result of getattr(operator, name, "and_").  The attributes of the
    operator module whose name ends in a single underscore are exactly
    and_, or_, not_ and is_; every other such name yields the default,
    which is the string "and_" rather than a function. -/
inductive OperatorAttr where
  | opAnd : OperatorAttr
  | opOr : OperatorAttr
  | opNot : OperatorAttr
  | opIs : OperatorAttr
  | strDefault : OperatorAttr
deriving DecidableEq

/-- getattr(operator, name, "and_").  Faithful for every name of the
    form connector.lower() + "_" with the connector made of ASCII
    letters: such a name is lowercase letters followed by one
    underscore, and the operator module attributes of that shape are
    exactly and_, or_, not_ and is_ (its other attributes either lack
    the trailing underscore or are dunder names ending in two). -/
def operator_getattr (name : List Nat) : OperatorAttr :=
  if name = sAndUnd then .opAnd
  else if name = sOrUnd then .opOr
  else if name = sNotUnd then .opNot
  else if name = sIsUnd then .opIs
  else .strDefault

/-- Calling the result of the getattr above on a Q accumulator value
    and a freshly constructed Q:
    and_ and or_ combine the two Q values;
    not_ takes exactly one argument, so the two argument call raises a
    TypeError, modelled as an error;
    is_ is the object identity test, and the right argument is a Q
    object constructed in this very iteration, so the result is the
    bool False;
    calling the default string raises a TypeError. -/
def applyOperatorAttr : OperatorAttr → QExpr → QExpr → Except Unit QObjVal
  | .opAnd, a, b => .ok (.qexpr (.qand a b))
  | .opOr, a, b => .ok (.qexpr (.qor a b))
  | .opNot, _, _ => .error ()
  | .opIs, _, _ => .ok .pyFalse
  | .strDefault, _, _ => .error ()

/-- Modelled from the spec: the combination methods of Q looked up by
    name, "__and__" and "__or__"; any other dunder name is missing and
    the lookup is an AttributeError. -/
def q_dunder (name : List Nat) : Option OperatorAttr :=
  if name = sDunderAnd then some .opAnd
  else if name = sDunderOr then some .opOr
  else none

/-- Q(**{"{field}__{op}": value}). -/
def leafQ (field op : List Nat) (v : LookupRhs) : QExpr :=
  .qleaf (field ++ sUndUnd ++ op) v

mutual

/-- filters_to_search_query: fresh models model.search_query(), query
    is the optional query argument.  Indexing a tuple filter with the
    string "connector" is a TypeError, modelled as an error.
    The final merge: a q_objects of False still passes the
    "is not None" test and is stored when nothing was gathered yet;
    merging into an already gathered value looks the connector dunder
    up on it first (an AttributeError when the value is a Q without
    that method), and combining a bool with a Q, in either order, is a
    TypeError because Q (modelled from the spec) combines only with Q
    values. -/
def filters_to_search_query (filters : QFilter) (fresh : SearchQuery) (query : Option SearchQuery) : Except Unit SearchQuery :=
  match filters with
  | .leaf _ _ _ => .error ()
  | .group connector children => do
    let st ← compileChildren connector fresh children none (query.getD fresh)
    match st.1 with
    | none => return st.2
    | some qo =>
      match st.2.gathered_q with
      | none => return { st.2 with gathered_q := some qo }
      | some (.pyFalse) => .error ()
      | some (.qexpr g) =>
        match q_dunder (sUndUnd ++ asciiLower connector ++ sUndUnd) with
        | none => .error ()
        | some c => do
          let combined ← (match qo with
            | .qexpr qe => applyOperatorAttr c g qe
            | .pyFalse => .error ())
          return { st.2 with gathered_q := some combined }
  termination_by sizeOf filters

/-- The loop over children: q_objects gathers the tuple children with
    the connector of the group, dict children recurse with the threaded
    search query.  A nonempty Q value is always truthy; None and False
    are falsy, so a False accumulator is overwritten by the next tuple
    child. -/
def compileChildren (connector : List Nat) (fresh : SearchQuery) (cs : List QFilter) (q_objects : Option QObjVal) (sq : SearchQuery) : Except Unit (Option QObjVal × SearchQuery) :=
  match cs with
  | [] => .ok (q_objects, sq)
  | .leaf f op v :: rest =>
    let q := leafQ f op v
    match q_objects with
    | some (.qexpr qo) => do
      let q2 ← applyOperatorAttr (operator_getattr (asciiLower connector ++ sUnd)) qo q
      compileChildren connector fresh rest (some q2) sq
    | _ => compileChildren connector fresh rest (some (.qexpr q)) sq
  | .group c2 ch2 :: rest => do
    let sq2 ← filters_to_search_query (.group c2 ch2) fresh (some sq)
    compileChildren connector fresh rest q_objects sq2
  termination_by sizeOf cs

end

/- ----------------------------------------------------------------
   Helper instances and lemmas
   ---------------------------------------------------------------- -/

instance {ε α : Type} [DecidableEq ε] [DecidableEq α] : DecidableEq (Except ε α) := fun a b =>
  match a, b with
  | .ok x, .ok y => if h : x = y then .isTrue (by rw [h]) else .isFalse (by simp [h])
  | .error x, .error y => if h : x = y then .isTrue (by rw [h]) else .isFalse (by simp [h])
  | .ok _, .error _ => .isFalse (by simp)
  | .error _, .ok _ => .isFalse (by simp)

/-- Splitting a list at a separator not occurring in the part before it
    is unambiguous. -/
theorem sep_split_inj (a : List Nat) : ∀ (b r s : List Nat), 46 ∉ a → 46 ∉ b →
    a ++ 46 :: r = b ++ 46 :: s → a = b ∧ r = s := by
  induction a with
  | nil =>
    intro b r s _ hb h
    cases b with
    | nil =>
      simp only [List.nil_append, List.cons.injEq] at h
      exact ⟨rfl, h.2⟩
    | cons y ys =>
      simp only [List.nil_append, List.cons_append, List.cons.injEq] at h
      obtain ⟨h1, _⟩ := h
      subst h1
      exact absurd (List.mem_cons_self _ _) hb
  | cons x xs ih =>
    intro b r s ha hb h
    cases b with
    | nil =>
      simp only [List.cons_append, List.nil_append, List.cons.injEq] at h
      obtain ⟨h1, _⟩ := h
      subst h1
      exact absurd (List.mem_cons_self _ _) ha
    | cons y ys =>
      simp only [List.cons_append, List.cons.injEq] at h
      obtain ⟨h1, h2⟩ := h
      have hxs : (46 : Nat) ∉ xs := fun hm => ha (List.mem_cons_of_mem _ hm)
      have hys : (46 : Nat) ∉ ys := fun hm => hb (List.mem_cons_of_mem _ hm)
      obtain ⟨h3, h4⟩ := ih ys r s hxs hys h2
      exact ⟨by rw [h1, h3], h4⟩

/- ----------------------------------------------------------------
   Claims C1 and C10: get_rank
   ---------------------------------------------------------------- -/

/-- Concrete model instance with a "score" field equal to 5. -/
def inst0 : List Nat → Option PyObj :=
  fun s => if s = [115, 99, 111, 114, 101] then some (.vInt 5) else none

/-- Claim C1, counterexample: resolving the rank name "-score" on an
    instance whose score is 5 returns 5 itself, not MAX_RANK - 5 as the
    claim states: the code inverts the rank exactly when the name has
    no "-" in front. -/
theorem claim_c1_cex :
    get_rank inst0 (.vStr [45, 115, 99, 111, 114, 101]) = .ok (.vInt 5)
    ∧ (PyObj.vInt 5 ≠ PyObj.vInt (MAX_RANK - 5)) := by
  exact ⟨by decide, by decide⟩

/-- Claim C1, amended: for a field name with a "-" in front, get_rank
    strips the "-", resolves the name, and returns the resolved value
    unchanged; for a name without the "-" it returns MAX_RANK minus the
    resolved value. -/
theorem claim_c1_theorem (inst : List Nat → Option PyObj) (name : List Nat) (n : Int)
    (h0 : name ≠ []) (h45 : name.head? ≠ some 45) (hattr : inst name = some (.vInt n)) :
    get_rank inst (.vStr (45 :: name)) = .ok (.vInt n)
    ∧ get_rank inst (.vStr name) = .ok (.vInt (MAX_RANK - n)) := by
  constructor
  · simp [get_rank, truthy, finishRank, hattr]
  · simp [get_rank, truthy, finishRank, hattr, h45, h0]

/-- Claim C1, witness for the amended statement at the instance with
    score equal to 5. -/
theorem claim_c1_witness :
    get_rank inst0 (.vStr (45 :: [115, 99, 111, 114, 101])) = .ok (.vInt 5)
    ∧ get_rank inst0 (.vStr [115, 99, 111, 114, 101]) = .ok (.vInt (MAX_RANK - 5)) :=
  claim_c1_theorem inst0 [115, 99, 111, 114, 101] 5 (by decide) (by decide) (by decide)

/-- Claim C10: a falsy rank argument (None, 0, the empty string) is
    returned unchanged by get_rank, with no attribute resolution, no
    string encoding and no MAX_RANK inversion. -/
theorem claim_c10_theorem (inst : List Nat → Option PyObj) (rank : PyObj)
    (h : truthy rank = false) :
    get_rank inst rank = .ok rank := by
  simp [get_rank, h]

/-- Claim C10, witness: the numeric rank 0 is returned unchanged, not
    mapped to MAX_RANK. -/
theorem claim_c10_witness :
    get_rank (fun _ => none) (.vInt 0) = .ok (.vInt 0) :=
  claim_c10_theorem (fun _ => none) (.vInt 0) (by decide)

/- ----------------------------------------------------------------
   Claims C4 and C6: build_lookup
   ---------------------------------------------------------------- -/

/-- Claim C4, counterexample: lowering an "in" leaf over the field
    "email" with an empty candidate list raises no error at all: it
    returns an OR group whose children sequence is empty. -/
theorem claim_c4_cex :
    build_lookup [101, 109, 97, 105, 108] sIn (.vlist []) = .ok (.group sOR [])
    ∧ (Except.ok (QFilter.group sOR []) ≠ (Except.error () : Except Unit QFilter)) := by
  refine ⟨rfl, ?_⟩
  simp

/-- Claim C4, amended: lowering an "in" leaf with a non-iterable value
    raises a generic type error from iterating the value; an empty
    iterable is not rejected and produces a group whose children
    sequence is empty. -/
theorem claim_c4_theorem (f op : List Nat) (n : Int) (h : asciiLower op = sIn) :
    build_lookup f op (.scalarInt n) = .error ()
    ∧ build_lookup f op (.vlist []) = .ok (.group sOR []) := by
  constructor <;> simp [build_lookup, h]

/-- Claim C4, witness at the field "email" and operator "in". -/
theorem claim_c4_witness :
    build_lookup [101, 109, 97, 105, 108] sIn (.scalarInt 1) = .error ()
    ∧ build_lookup [101, 109, 97, 105, 108] sIn (.vlist []) = .ok (.group sOR []) :=
  claim_c4_theorem [101, 109, 97, 105, 108] sIn 1 (by decide)

/-- Claim C6: a leaf whose operator lowercases to "in" lowers to an OR
    group of exact leaves over the candidate values in order, and a
    leaf with any other operator is returned unchanged. -/
theorem claim_c6_theorem (f op1 op2 : List Nat) (vs : List Int) (rhs : LookupRhs)
    (_hne : vs ≠ []) (h1 : asciiLower op1 = sIn) (h2 : asciiLower op2 ≠ sIn) :
    build_lookup f op1 (.vlist vs)
      = .ok (.group sOR (vs.map fun v => .leaf f sExact (.scalarInt v)))
    ∧ build_lookup f op2 rhs = .ok (.leaf f op2 rhs) := by
  constructor <;> simp [build_lookup, h1, h2]

/-- Claim C6, witness at field "email", operator "IN" with values
    [1, 2], and operator "exact" with value 3. -/
theorem claim_c6_witness :
    build_lookup [101, 109, 97, 105, 108] [73, 78] (.vlist [1, 2])
      = .ok (.group sOR [.leaf [101, 109, 97, 105, 108] sExact (.scalarInt 1),
          .leaf [101, 109, 97, 105, 108] sExact (.scalarInt 2)])
    ∧ build_lookup [101, 109, 97, 105, 108] sExact (.scalarInt 3)
      = .ok (.leaf [101, 109, 97, 105, 108] sExact (.scalarInt 3)) :=
  claim_c6_theorem [101, 109, 97, 105, 108] [73, 78] sExact [1, 2] (.scalarInt 3)
    (by decide) (by decide) (by decide)

/- ----------------------------------------------------------------
   Claim C8: DisableIndexing
   ---------------------------------------------------------------- -/

/-- Claim C8: entering a fresh DisableIndexing twice without exit
    captures previous_state only at the first entry, so exit restores
    the flag that held before the first entry, while a direct call
    always recaptures previous_state and forces the flag off. -/
theorem claim_c8_theorem (s0 : Bool) (d0 : DisableIndexing) (h : d0.previous_state = none)
    (d : DisableIndexing) (s : Bool) :
    (((d0.enter s0).1.enter (d0.enter s0).2).1.previous_state = some s0
      ∧ ((d0.enter s0).1.enter (d0.enter s0).2).2 = false
      ∧ ((d0.enter s0).1.enter (d0.enter s0).2).1.exit = .ok s0)
    ∧ ((d.call s).1.previous_state = some s
      ∧ (d.call s).2 = false
      ∧ (d.call s).1.exit = .ok s) := by
  obtain ⟨p⟩ := d0
  simp only at h
  subst h
  simp [DisableIndexing.enter, DisableIndexing.call, DisableIndexing.exit]

/-- Claim C8, witness: starting enabled with a fresh instance, and a
    direct call on an instance with a stale previous_state. -/
theorem claim_c8_witness :
    ((((⟨none⟩ : DisableIndexing).enter true).1.enter
        ((⟨none⟩ : DisableIndexing).enter true).2).1.previous_state = some true
      ∧ (((⟨none⟩ : DisableIndexing).enter true).1.enter
          ((⟨none⟩ : DisableIndexing).enter true).2).2 = false
      ∧ (((⟨none⟩ : DisableIndexing).enter true).1.enter
          ((⟨none⟩ : DisableIndexing).enter true).2).1.exit = .ok true)
    ∧ (((⟨some false⟩ : DisableIndexing).call true).1.previous_state = some true
      ∧ (((⟨some false⟩ : DisableIndexing).call true).2 = false)
      ∧ (((⟨some false⟩ : DisableIndexing).call true).1.exit = .ok true)) :=
  claim_c8_theorem true ⟨none⟩ rfl ⟨some false⟩ true

/- ----------------------------------------------------------------
   Claim C9: get_uid
   ---------------------------------------------------------------- -/

/-- Claim C9, counterexample: the distinct triples (model "c",
    document "d", index "a.b") and (model "b", document "c.d",
    index "a") produce the same UID string "a.b.c.d". -/
theorem claim_c9_cex :
    get_uid [99] [100] [97, 46, 98] = get_uid [98] [99, 46, 100] [97]
    ∧ ([99] : List Nat) ≠ [98] := by
  exact ⟨by decide, by decide⟩

/-- Claim C9, amended: get_uid is deterministic, and it is injective
    over triples whose model and document class names contain no "."
    ordinal (as is the case for class __name__ values); arbitrary
    dotted strings can collide. -/
theorem claim_c9_theorem (m1 d1 i1 m2 d2 i2 : List Nat)
    (hm1 : (46 : Nat) ∉ m1) (hd1 : (46 : Nat) ∉ d1)
    (hm2 : (46 : Nat) ∉ m2) (hd2 : (46 : Nat) ∉ d2)
    (h : get_uid m1 d1 i1 = get_uid m2 d2 i2) :
    m1 = m2 ∧ d1 = d2 ∧ i1 = i2 := by
  have hrev := congrArg List.reverse h
  simp only [get_uid, List.reverse_append, List.reverse_cons, List.append_assoc,
    List.singleton_append, List.cons_append, List.nil_append] at hrev
  have h1 := sep_split_inj d1.reverse d2.reverse _ _
    (fun hm => hd1 (List.mem_reverse.mp hm)) (fun hm => hd2 (List.mem_reverse.mp hm)) hrev
  have h2 := sep_split_inj m1.reverse m2.reverse _ _
    (fun hm => hm1 (List.mem_reverse.mp hm)) (fun hm => hm2 (List.mem_reverse.mp hm)) h1.2
  refine ⟨List.reverse_inj.mp h2.1, List.reverse_inj.mp h1.1, List.reverse_inj.mp h2.2⟩

/-- Claim C9, witness for the amended statement at dot free class
    names and the dotted index name "a.b". -/
theorem claim_c9_witness :
    ([77] : List Nat) = [77] ∧ ([68] : List Nat) = [68] ∧ ([97, 46, 98] : List Nat) = [97, 46, 98] :=
  claim_c9_theorem [77] [68] [97, 46, 98] [77] [68] [97, 46, 98]
    (by decide) (by decide) (by decide) (by decide) rfl

/- ----------------------------------------------------------------
   Claim C3: the single child AND collapse of the extractor
   ---------------------------------------------------------------- -/

theorem extractChild_lookup (t ln : List Nat) (rhs : LookupRhs) :
    extractChild (.lookup t ln rhs) = build_lookup t ln rhs := by
  rw [extractChild.eq_def]

theorem extractChild_and_single (x : WhereNode) :
    extractChild (.node sAND [x]) = (match x with
      | .lookup t ln rhs => build_lookup t ln rhs
      | .node nc2 cs2 => get_filters_from_queryset (.node nc2 cs2)) := by
  rw [extractChild.eq_def]
  exact if_pos rfl

theorem extractChild_single_other (nc : List Nat) (x : WhereNode) (h : nc ≠ sAND) :
    extractChild (.node nc [x]) = get_filters_from_queryset (.node nc [x]) := by
  rw [extractChild.eq_def]
  exact if_neg h

theorem extractChild_nil (nc : List Nat) :
    extractChild (.node nc []) = get_filters_from_queryset (.node nc []) := by
  rw [extractChild.eq_def]

theorem extractChild_two (nc : List Nat) (y1 y2 : WhereNode) (ys : List WhereNode) :
    extractChild (.node nc (y1 :: y2 :: ys))
      = get_filters_from_queryset (.node nc (y1 :: y2 :: ys)) := by
  rw [extractChild.eq_def]

theorem get_filters_node (conn : List Nat) (children : List WhereNode) :
    get_filters_from_queryset (.node conn children)
      = Except.map (QFilter.group conn) (extractChildren children) := by
  rw [get_filters_from_queryset.eq_def]

theorem extractChildren_nil : extractChildren [] = .ok [] := by
  rw [extractChildren.eq_def]

theorem extractChildren_cons (c : WhereNode) (rest : List WhereNode) :
    extractChildren (c :: rest) = (extractChild c).bind
      (fun f => (extractChildren rest).bind fun fs => .ok (f :: fs)) := by
  rw [extractChildren.eq_def]
  rfl

/-- A where node that is not an AND node with exactly one child. -/
def notSingleAnd : WhereNode → Bool
  | .node nc [_] => decide (nc ≠ sAND)
  | _ => true

theorem extractChild_collapse (x : WhereNode) (hx : notSingleAnd x = true) :
    extractChild (.node sAND [x]) = extractChild x := by
  rw [extractChild_and_single]
  cases x with
  | lookup t ln rhs => rw [extractChild_lookup]
  | node nc2 cs2 =>
    cases cs2 with
    | nil => rw [extractChild_nil]
    | cons y ys =>
      cases ys with
      | nil =>
        have h : nc2 ≠ sAND := by
          simpa [notSingleAnd] using hx
        rw [extractChild_single_other _ _ h]
      | cons y2 ys2 => rw [extractChild_two]

theorem extractChildren_congr (a b : WhereNode) (h : extractChild a = extractChild b)
    (pre post : List WhereNode) :
    extractChildren (pre ++ a :: post) = extractChildren (pre ++ b :: post) := by
  induction pre with
  | nil =>
    rw [List.nil_append, List.nil_append, extractChildren_cons, extractChildren_cons, h]
  | cons p ps ih =>
    rw [List.cons_append, List.cons_append, extractChildren_cons, extractChildren_cons, ih]

/-- Claim C3, counterexample: extracting the single child AND group
    directly (as the root of the walk) does not collapse the AND
    wrapper: the result keeps it around the extraction of the child,
    while extracting the child directly does not. -/
theorem claim_c3_cex :
    get_filters_from_queryset (.node sAND
        [.node sOR [.lookup [97] sExact (.scalarInt 1), .lookup [98] sExact (.scalarInt 2)]])
    ≠ get_filters_from_queryset
        (.node sOR [.lookup [97] sExact (.scalarInt 1), .lookup [98] sExact (.scalarInt 2)]) := by
  have h2 : get_filters_from_queryset
      (.node sOR [.lookup [97] sExact (.scalarInt 1), .lookup [98] sExact (.scalarInt 2)])
      = .ok (.group sOR [.leaf [97] sExact (.scalarInt 1), .leaf [98] sExact (.scalarInt 2)]) := by
    rw [get_filters_node, extractChildren_cons, extractChildren_cons, extractChildren_nil,
      extractChild_lookup, extractChild_lookup]
    rfl
  have hec : extractChild
      (.node sOR [.lookup [97] sExact (.scalarInt 1), .lookup [98] sExact (.scalarInt 2)])
      = .ok (.group sOR [.leaf [97] sExact (.scalarInt 1), .leaf [98] sExact (.scalarInt 2)]) := by
    rw [extractChild_two, h2]
  have h1 : get_filters_from_queryset (.node sAND
      [.node sOR [.lookup [97] sExact (.scalarInt 1), .lookup [98] sExact (.scalarInt 2)]])
      = .ok (.group sAND [.group sOR
          [.leaf [97] sExact (.scalarInt 1), .leaf [98] sExact (.scalarInt 2)]]) := by
    rw [get_filters_node, extractChildren_cons, extractChildren_nil, hec]
    rfl
  rw [h1, h2]
  intro hcontra
  simp [sAND, sOR] at hcontra

/-- Claim C3, amended: a single child AND group appearing as a child of
    another node is collapsed, so the surrounding extraction equals the
    one with the sole child in its place, provided the sole child is
    not itself a single child AND group; at the root of the walk no
    collapse happens. -/
theorem claim_c3_theorem (conn : List Nat) (pre post : List WhereNode) (x : WhereNode)
    (hx : notSingleAnd x = true) :
    get_filters_from_queryset (.node conn (pre ++ WhereNode.node sAND [x] :: post))
      = get_filters_from_queryset (.node conn (pre ++ x :: post)) := by
  rw [get_filters_node, get_filters_node,
    extractChildren_congr _ _ (extractChild_collapse x hx) pre post]

/-- Claim C3, witness: inside an OR node, the single child AND wrapper
    around a lookup makes no difference. -/
theorem claim_c3_witness :
    get_filters_from_queryset (.node sOR
        [WhereNode.node sAND [.lookup [97] sExact (.scalarInt 1)]])
      = get_filters_from_queryset (.node sOR [WhereNode.lookup [97] sExact (.scalarInt 1)]) :=
  claim_c3_theorem sOR [] [] (.lookup [97] sExact (.scalarInt 1)) (by decide)

/- ----------------------------------------------------------------
   Claim C5: unknown connectors in the compiler
   ---------------------------------------------------------------- -/

theorem f2sq_group (conn : List Nat) (children : List QFilter) (fresh : SearchQuery)
    (q : Option SearchQuery) :
    filters_to_search_query (.group conn children) fresh q
      = (compileChildren conn fresh children none (q.getD fresh)).bind (fun st =>
          match st.1 with
          | none => .ok st.2
          | some qo =>
            match st.2.gathered_q with
            | none => .ok { st.2 with gathered_q := some qo }
            | some (.pyFalse) => .error ()
            | some (.qexpr g) =>
              match q_dunder (sUndUnd ++ asciiLower conn ++ sUndUnd) with
              | none => .error ()
              | some c =>
                (match qo with
                  | .qexpr qe => applyOperatorAttr c g qe
                  | .pyFalse => .error ()).bind fun combined =>
                  .ok { st.2 with gathered_q := some combined }) := by
  rw [filters_to_search_query.eq_def]
  rfl

theorem compileChildren_nil (conn : List Nat) (fresh : SearchQuery) (qo : Option QObjVal)
    (sq : SearchQuery) :
    compileChildren conn fresh [] qo sq = .ok (qo, sq) := by
  rw [compileChildren.eq_def]

theorem compileChildren_leaf_none (conn f op : List Nat) (v : LookupRhs)
    (rest : List QFilter) (fresh : SearchQuery) (sq : SearchQuery) :
    compileChildren conn fresh (.leaf f op v :: rest) none sq
      = compileChildren conn fresh rest (some (.qexpr (leafQ f op v))) sq := by
  rw [compileChildren.eq_def]

theorem compileChildren_leaf_false (conn f op : List Nat) (v : LookupRhs)
    (rest : List QFilter) (fresh : SearchQuery) (sq : SearchQuery) :
    compileChildren conn fresh (.leaf f op v :: rest) (some .pyFalse) sq
      = compileChildren conn fresh rest (some (.qexpr (leafQ f op v))) sq := by
  rw [compileChildren.eq_def]

theorem compileChildren_leaf_some (conn f op : List Nat) (v : LookupRhs)
    (rest : List QFilter) (fresh : SearchQuery) (sq : SearchQuery) (qo : QExpr) :
    compileChildren conn fresh (.leaf f op v :: rest) (some (.qexpr qo)) sq
      = (applyOperatorAttr (operator_getattr (asciiLower conn ++ sUnd)) qo (leafQ f op v)).bind
          (fun q2 => compileChildren conn fresh rest (some q2) sq) := by
  rw [compileChildren.eq_def]
  rfl

theorem compileChildren_group (conn c2 : List Nat) (ch2 : List QFilter)
    (rest : List QFilter) (fresh : SearchQuery) (sq : SearchQuery) (qo : Option QObjVal) :
    compileChildren conn fresh (.group c2 ch2 :: rest) qo sq
      = (filters_to_search_query (.group c2 ch2) fresh (some sq)).bind
          (fun sq2 => compileChildren conn fresh rest qo sq2) := by
  rw [compileChildren.eq_def]
  rfl

/-- Claim C5, counterexample: a filter whose connector is "XOR" -
    neither AND nor OR - with a single tuple child compiles without any
    error: the gathered expression is stored on the fresh query. -/
theorem claim_c5_cex :
    filters_to_search_query (.group [88, 79, 82] [.leaf [97] sExact (.scalarInt 1)]) ⟨none⟩ none
      = .ok ⟨some (.qexpr (leafQ [97] sExact (.scalarInt 1)))⟩
    ∧ (Except.ok (⟨some (.qexpr (leafQ [97] sExact (.scalarInt 1)))⟩ : SearchQuery)
        ≠ (Except.error () : Except Unit SearchQuery)) := by
  constructor
  · rw [f2sq_group, compileChildren_leaf_none, compileChildren_nil]
    rfl
  · simp

/-- Claim C5, amended: for a connector made of ASCII letters that is
    neither AND nor OR, no dedicated invalid filter error exists, and
    what happens depends on which operator module attribute the
    lowercased name with "_" appended reaches:
    when it reaches none (the common case, e.g. XOR), a group with one
    tuple child and no previously gathered expression compiles
    successfully, and a type error is raised only when a second tuple
    child must be folded into the accumulator, because the lookup falls
    back to a non-callable default string;
    the connector IS reaches operator.is_, so two tuple children
    compile successfully and store the bool False produced by the
    identity comparison;
    the connector NOT reaches operator.not_, a one argument function,
    so folding a second tuple child raises a type error. -/
theorem claim_c5_theorem (conn f1 op1 f2 op2 : List Nat) (v1 v2 : LookupRhs)
    (fresh : SearchQuery) (q : Option SearchQuery)
    (_hletters : ∀ ch ∈ conn, isAlphaOrd ch = true)
    (h : operator_getattr (asciiLower conn ++ sUnd) = .strDefault) :
    filters_to_search_query (.group conn [.leaf f1 op1 v1]) ⟨none⟩ none
      = .ok ⟨some (.qexpr (leafQ f1 op1 v1))⟩
    ∧ filters_to_search_query (.group conn [.leaf f1 op1 v1, .leaf f2 op2 v2]) fresh q
      = .error ()
    ∧ filters_to_search_query (.group [73, 83] [.leaf f1 op1 v1, .leaf f2 op2 v2]) ⟨none⟩ none
      = .ok ⟨some .pyFalse⟩
    ∧ filters_to_search_query (.group [78, 79, 84] [.leaf f1 op1 v1, .leaf f2 op2 v2]) fresh q
      = .error () := by
  have hIs : operator_getattr (asciiLower [73, 83] ++ sUnd) = .opIs := rfl
  have hNot : operator_getattr (asciiLower [78, 79, 84] ++ sUnd) = .opNot := rfl
  refine ⟨?_, ?_, ?_, ?_⟩
  · rw [f2sq_group, compileChildren_leaf_none, compileChildren_nil]
    rfl
  · rw [f2sq_group, compileChildren_leaf_none, compileChildren_leaf_some, h]
    rfl
  · rw [f2sq_group, compileChildren_leaf_none, compileChildren_leaf_some, hIs]
    simp only [compileChildren_nil]
    rfl
  · rw [f2sq_group, compileChildren_leaf_none, compileChildren_leaf_some, hNot]
    rfl

/-- Claim C5, witness for the amended statement at the connector
    "XOR". -/
theorem claim_c5_witness :
    filters_to_search_query (.group [88, 79, 82] [.leaf [97] sExact (.scalarInt 1)]) ⟨none⟩ none
      = .ok ⟨some (.qexpr (leafQ [97] sExact (.scalarInt 1)))⟩
    ∧ filters_to_search_query (.group [88, 79, 82]
        [.leaf [97] sExact (.scalarInt 1), .leaf [98] sExact (.scalarInt 2)]) ⟨none⟩ none
      = .error ()
    ∧ filters_to_search_query (.group [73, 83]
        [.leaf [97] sExact (.scalarInt 1), .leaf [98] sExact (.scalarInt 2)]) ⟨none⟩ none
      = .ok ⟨some .pyFalse⟩
    ∧ filters_to_search_query (.group [78, 79, 84]
        [.leaf [97] sExact (.scalarInt 1), .leaf [98] sExact (.scalarInt 2)]) ⟨none⟩ none
      = .error () :=
  claim_c5_theorem [88, 79, 82] [97] sExact [98] sExact (.scalarInt 1) (.scalarInt 2)
    ⟨none⟩ none (by decide) (by decide)

/- ----------------------------------------------------------------
   Claims C2 and C7: order properties of get_ascii_string_rank
   ---------------------------------------------------------------- -/

theorem two_digit_lt100 : ∀ o, o < 100 → two_digit o = [o / 10, o % 10] := by decide

theorem get_ord_ge (c : Nat) : 10 ≤ get_ord c := by
  simp only [get_ord, isAlphaOrd, punctuation_ord, smallest_ord, offset]
  split
  next h =>
    simp only [Bool.or_eq_true, Bool.and_eq_true, decide_eq_true_eq] at h
    omega
  next => omega

theorem get_ord_le (c : Nat) : get_ord c ≤ 68 := by
  simp only [get_ord, isAlphaOrd, punctuation_ord, smallest_ord, offset]
  split
  next h =>
    simp only [Bool.or_eq_true, Bool.and_eq_true, decide_eq_true_eq] at h
    omega
  next => omega

theorem listVal_codes (c1 c2 c3 c4 c5 : Nat) :
    listVal [c1 / 10, c1 % 10, c2 / 10, c2 % 10, c3 / 10, c3 % 10, c4 / 10, c4 % 10, c5 / 10]
      = c1 * 10000000 + c2 * 100000 + c3 * 1000 + c4 * 10 + c5 / 10 := by
  simp only [listVal, List.foldl]
  omega

theorem take9_explicit (a1 a2 a3 a4 a5 a6 a7 a8 a9 : Nat) (l : List Nat) :
    List.take 9 (a1 :: a2 :: a3 :: a4 :: a5 :: a6 :: a7 :: a8 :: a9 :: l)
      = [a1, a2, a3, a4, a5, a6, a7, a8, a9] := rfl

theorem pad_decomp (s : List Nat) : ∃ u1 u2 u3 u4 u5 t,
    s ++ List.replicate 9 punctuation_ord = u1 :: u2 :: u3 :: u4 :: u5 :: t := by
  match s with
  | [] => exact ⟨64, 64, 64, 64, 64, List.replicate 4 64, rfl⟩
  | [a] => exact ⟨a, 64, 64, 64, 64, List.replicate 5 64, rfl⟩
  | [a, b] => exact ⟨a, b, 64, 64, 64, List.replicate 6 64, rfl⟩
  | [a, b, c] => exact ⟨a, b, c, 64, 64, List.replicate 7 64, rfl⟩
  | [a, b, c, d] => exact ⟨a, b, c, d, 64, List.replicate 8 64, rfl⟩
  | a :: b :: c :: d :: e :: t =>
    exact ⟨a, b, c, d, e, t ++ List.replicate 9 punctuation_ord, rfl⟩

/-- The closed form of the rank at the default digit budget: it reads
    exactly the first five characters of the padded string. -/
theorem rank_closed (s : List Nat) (u1 u2 u3 u4 u5 : Nat) (t : List Nat)
    (hs : s ++ List.replicate 9 punctuation_ord = u1 :: u2 :: u3 :: u4 :: u5 :: t) :
    get_ascii_string_rank s
      = get_ord u1 * 10000000 + get_ord u2 * 100000 + get_ord u3 * 1000
        + get_ord u4 * 10 + get_ord u5 / 10 := by
  have hb : ∀ c : Nat, two_digit (get_ord c) = [get_ord c / 10, get_ord c % 10] :=
    fun c => two_digit_lt100 (get_ord c) (by have := get_ord_le c; omega)
  simp only [get_ascii_string_rank]
  rw [hs]
  simp only [List.map_cons, hb, List.flatten_cons, List.cons_append, List.nil_append]
  rw [take9_explicit]
  exact listVal_codes _ _ _ _ _

/-- The code sequence the rank is computed from. -/
def rankCodes (s : List Nat) : List Nat :=
  (s ++ List.replicate 9 punctuation_ord).map get_ord

theorem rankCodes_cons (y : Nat) (ys : List Nat) :
    rankCodes (y :: ys) = get_ord y :: rankCodes ys := rfl

theorem rankCodes_nil :
    rankCodes [] = 10 :: (List.replicate 8 punctuation_ord).map get_ord := rfl

theorem get_ord_alpha_lt (x y : Nat) (hx : isAlphaOrd x = true) (hy : isAlphaOrd y = true)
    (hlt : x < y) : get_ord x < get_ord y := by
  have hx2 := hx
  have hy2 := hy
  simp only [isAlphaOrd, Bool.or_eq_true, Bool.and_eq_true, decide_eq_true_eq] at hx2 hy2
  simp only [get_ord, hx, hy, if_true]
  unfold offset smallest_ord
  omega

theorem get_ord_alpha_ge11 (y : Nat) (hy : isAlphaOrd y = true) : 11 ≤ get_ord y := by
  have hy2 := hy
  simp only [isAlphaOrd, Bool.or_eq_true, Bool.and_eq_true, decide_eq_true_eq] at hy2
  simp only [get_ord, hy, if_true]
  unfold offset smallest_ord
  omega

theorem lex_get_ord (k : Nat) : ∀ (a b : List Nat),
    (∀ c ∈ a, isAlphaOrd c = true) → (∀ c ∈ b, isAlphaOrd c = true) →
    lexLt (a.take k) (b.take k) = true →
    lexLt ((rankCodes a).take k) ((rankCodes b).take k) = true := by
  induction k with
  | zero =>
    intro a b _ _ h
    simp [lexLt] at h
  | succ k ih =>
    intro a b ha hb h
    cases a with
    | nil =>
      cases b with
      | nil => simp [lexLt] at h
      | cons y ys =>
        have hy : isAlphaOrd y = true := hb y (by simp)
        have h11 : 11 ≤ get_ord y := get_ord_alpha_ge11 y hy
        rw [rankCodes_nil, rankCodes_cons, List.take_succ_cons, List.take_succ_cons]
        simp only [lexLt, Bool.or_eq_true, Bool.and_eq_true, decide_eq_true_eq]
        exact Or.inl (by omega)
    | cons x xs =>
      cases b with
      | nil =>
        rw [List.take_nil] at h
        simp [lexLt] at h
      | cons y ys =>
        rw [List.take_succ_cons, List.take_succ_cons] at h
        simp only [lexLt, Bool.or_eq_true, Bool.and_eq_true, decide_eq_true_eq] at h
        have hx : isAlphaOrd x = true := ha x (by simp)
        have hy : isAlphaOrd y = true := hb y (by simp)
        rw [rankCodes_cons, rankCodes_cons, List.take_succ_cons, List.take_succ_cons]
        simp only [lexLt, Bool.or_eq_true, Bool.and_eq_true, decide_eq_true_eq]
        rcases h with h | ⟨hxy, hrec⟩
        · exact Or.inl (get_ord_alpha_lt x y hx hy h)
        · subst hxy
          refine Or.inr ⟨rfl, ?_⟩
          exact ih xs ys (fun c hc => ha c (List.mem_cons_of_mem _ hc))
            (fun c hc => hb c (List.mem_cons_of_mem _ hc)) hrec

/-- Claim C2, counterexample: the ASCII strings "0" and "1" are
    lexicographically ordered on their first four characters, yet
    their ranks are equal, because every non alphabetic character is
    encoded by the same punctuation code. -/
theorem claim_c2_cex :
    lexLt (List.take 4 [48]) (List.take 4 [49]) = true
    ∧ (∀ c ∈ ([48] : List Nat), c < 128) ∧ (∀ c ∈ ([49] : List Nat), c < 128)
    ∧ ¬(get_ascii_string_rank [48] < get_ascii_string_rank [49]) := by decide

/-- Claim C2, amended: for strings of ASCII alphabetic characters
    whose first four characters are strictly lexicographically
    ordered, the ranks are strictly ordered the same way. -/
theorem claim_c2_theorem (a b : List Nat)
    (ha : ∀ c ∈ a, isAlphaOrd c = true) (hb : ∀ c ∈ b, isAlphaOrd c = true)
    (hlt : lexLt (a.take 4) (b.take 4) = true) :
    get_ascii_string_rank a < get_ascii_string_rank b := by
  obtain ⟨u1, u2, u3, u4, u5, t, hu⟩ := pad_decomp a
  obtain ⟨w1, w2, w3, w4, w5, r, hw⟩ := pad_decomp b
  rw [rank_closed a u1 u2 u3 u4 u5 t hu, rank_closed b w1 w2 w3 w4 w5 r hw]
  have hcode := lex_get_ord 4 a b ha hb hlt
  have ea : (rankCodes a).take 4 = [get_ord u1, get_ord u2, get_ord u3, get_ord u4] := by
    unfold rankCodes
    rw [hu]
    rfl
  have eb : (rankCodes b).take 4 = [get_ord w1, get_ord w2, get_ord w3, get_ord w4] := by
    unfold rankCodes
    rw [hw]
    rfl
  rw [ea, eb] at hcode
  simp only [lexLt, Bool.or_eq_true, Bool.and_eq_true, decide_eq_true_eq,
    Bool.false_eq_true, and_false, or_false] at hcode
  have b1 := get_ord_ge u1
  have b2 := get_ord_ge u2
  have b3 := get_ord_ge u3
  have b4 := get_ord_ge u4
  have b5 := get_ord_ge u5
  have c1 := get_ord_le u1
  have c2 := get_ord_le u2
  have c3 := get_ord_le u3
  have c4 := get_ord_le u4
  have c5 := get_ord_le u5
  have e1 := get_ord_ge w1
  have e2 := get_ord_ge w2
  have e3 := get_ord_ge w3
  have e4 := get_ord_ge w4
  have e5 := get_ord_ge w5
  have f1 := get_ord_le w1
  have f2 := get_ord_le w2
  have f3 := get_ord_le w3
  have f4 := get_ord_le w4
  have f5 := get_ord_le w5
  omega

/-- Claim C2, witness for the amended statement: the rank of "A" is
    below the rank of "B". -/
theorem claim_c2_witness : get_ascii_string_rank [65] < get_ascii_string_rank [66] :=
  claim_c2_theorem [65] [66] (by decide) (by decide) (by decide)

theorem take_append_congr : ∀ (n : Nat) (a b c : List Nat), a.take n = b.take n →
    (a ++ c).take n = (b ++ c).take n := by
  intro n
  induction n with
  | zero => intro a b c _; simp
  | succ n ih =>
    intro a b c h
    cases a with
    | nil =>
      cases b with
      | nil => rfl
      | cons y ys =>
        rw [List.take_nil, List.take_succ_cons] at h
        exact absurd h (by simp)
    | cons x xs =>
      cases b with
      | nil =>
        rw [List.take_nil, List.take_succ_cons] at h
        exact absurd h (by simp)
      | cons y ys =>
        rw [List.take_succ_cons, List.take_succ_cons] at h
        obtain ⟨h1, h2⟩ := List.cons.inj h
        subst h1
        simp only [List.cons_append, List.take_succ_cons]
        rw [ih xs ys c h2]

theorem flatten_take_congr : ∀ (k n : Nat) (L1 L2 : List (List Nat)), n ≤ 2 * k →
    (∀ l ∈ L1, 2 ≤ l.length) → L1.take k = L2.take k →
    L1.flatten.take n = L2.flatten.take n := by
  intro k
  induction k with
  | zero =>
    intro n L1 L2 hn _ _
    have hn0 : n = 0 := by omega
    subst hn0
    simp
  | succ k ih =>
    intro n L1 L2 hn hlen h
    cases L1 with
    | nil =>
      cases L2 with
      | nil => rfl
      | cons m ms =>
        rw [List.take_nil, List.take_succ_cons] at h
        exact absurd h (by simp)
    | cons l ls =>
      cases L2 with
      | nil =>
        rw [List.take_nil, List.take_succ_cons] at h
        exact absurd h (by simp)
      | cons m ms =>
        rw [List.take_succ_cons, List.take_succ_cons] at h
        obtain ⟨h1, h2⟩ := List.cons.inj h
        subst h1
        simp only [List.flatten_cons]
        rw [List.take_append_eq_append_take, List.take_append_eq_append_take]
        have hl2 : 2 ≤ l.length := hlen l (by simp)
        rw [ih (n - l.length) ls ms (by omega)
          (fun x hx => hlen x (List.mem_cons_of_mem _ hx)) h2]

theorem two_digit_len (o : Nat) : 2 ≤ (two_digit o).length := by
  simp only [two_digit, zfill2, List.length_append, List.length_replicate]
  omega

/-- Claim C7, counterexample: the strings "AAAAA" and "AAAAz" agree on
    their first four characters (the claimed digit budget over two) and
    differ only beyond them, yet their ranks differ, because nine
    digits cover half of a fifth character. -/
theorem claim_c7_cex :
    List.take 4 [65, 65, 65, 65, 65] = List.take 4 ([65, 65, 65, 65, 122] : List Nat)
    ∧ get_ascii_string_rank [65, 65, 65, 65, 65]
      ≠ get_ascii_string_rank [65, 65, 65, 65, 122] := by decide

/-- Claim C7, amended: two strings that agree on their first five
    characters (the digit budget of nine covers no more) receive the
    same rank. -/
theorem claim_c7_theorem (a b : List Nat) (h : a.take 5 = b.take 5) :
    get_ascii_string_rank a = get_ascii_string_rank b := by
  simp only [get_ascii_string_rank]
  congr 1
  apply flatten_take_congr 5 9 _ _ (by omega)
  · intro l hl
    simp only [List.mem_map] at hl
    obtain ⟨o, _, rfl⟩ := hl
    exact two_digit_len o
  · have h1 : (a ++ List.replicate 9 punctuation_ord).take 5
        = (b ++ List.replicate 9 punctuation_ord).take 5 :=
      take_append_congr 5 a b _ h
    rw [← List.map_take, ← List.map_take, ← List.map_take, ← List.map_take, h1]

/-- Claim C7, witness: the ranks of "Python" and "Pythonic" agree, as
    in the docstring of the source. -/
theorem claim_c7_witness :
    get_ascii_string_rank [80, 121, 116, 104, 111, 110]
      = get_ascii_string_rank [80, 121, 116, 104, 111, 110, 105, 99] :=
  claim_c7_theorem [80, 121, 116, 104, 111, 110] [80, 121, 116, 104, 111, 110, 105, 99]
    (by decide)
